import Mathlib

/-!
Verification of the lorawan-stack Join Server core against its specification.

The Join handler (`HandleJoin`), the session-key read-back (`GetNwkSKeys`) and
the crypto derivations live in repository packages whose implementation files
are not part of the source snapshot (only their tests are), so those parts are
modelled from the specification text (sections 3, 4.1, 4.2, 4.5, 4.6 and 7 of
the design document); every such definition is marked `Modelled from the spec:`
in its doc comment.  The webhook sink `Process` is embedded directly from
`src/pkg/applicationserver/io/web/webhooks.go`.

Machine integers are modelled as `Nat`; EUIs, DevAddr, NetID, DevNonce and
JoinNonce are numeric values encoded least-significant-byte first on the wire.
Byte strings are `List Nat`.
-/

/-- Little-endian byte encoding of a natural number on `k` bytes. -/
def leBytes (k n : Nat) : List Nat := (List.range k).map (fun i => n / 256 ^ i % 256)

/-- Two-byte little-endian encoding (DevNonce). -/
def le2 (n : Nat) : List Nat := leBytes 2 n

/-- Three-byte little-endian encoding (JoinNonce, NetID). -/
def le3 (n : Nat) : List Nat := leBytes 3 n

/-- Four-byte little-endian encoding (DevAddr). -/
def le4 (n : Nat) : List Nat := leBytes 4 n

/-- Eight-byte little-endian encoding (EUI64). -/
def le8 (n : Nat) : List Nat := leBytes 8 n

/-- Little-endian decoding of a byte list to a natural number. -/
def bytesToNat (bs : List Nat) : Nat := bs.foldr (fun b acc => b + 256 * acc) 0

/-- Zero-padding of a byte list to a full 16-byte AES block (spec 4.2 `pad16`). -/
def pad16 (bs : List Nat) : List Nat := bs ++ List.replicate (16 - bs.length) 0

/-- Modelled from the spec: the AES-128 block operations and AES-CMAC used by
the `crypto` package, whose implementation is not under `src/`.  `enc k b` is
AES128 encryption of block `b` under key `k`, `dec` its inverse, and `cmac k m`
the AES-CMAC of message `m` under key `k`; they are abstract parameters of the
handler, so every theorem about the handler holds for any block cipher. -/
structure BlockCrypto where
  enc : List Nat → List Nat → List Nat
  dec : List Nat → List Nat → List Nat
  cmac : List Nat → List Nat → List Nat

/-- LoRaWAN MAC versions supported by the Join Server (spec section 3). -/
inductive MacVersion where
  | v1_0
  | v1_0_1
  | v1_0_2
  | v1_1
deriving DecidableEq, Repr

/-- Version family: `true` for the 1.1 family, `false` for the 1.0.x family. -/
def isV11 : MacVersion → Bool
  | .v1_1 => true
  | _ => false

/-- Error kinds of the Join Server RPC surface (spec section 7). -/
inductive ErrKind where
  | invalidArgument
  | dataLoss
  | permissionDenied
  | notFound
  | failedPrecondition
  | resourceExhausted
  | internal
  | unavailable
deriving DecidableEq, Repr

/-- Key envelope: plaintext key bytes plus a KEK label (spec section 3). -/
structure KeyEnvelope where
  key : List Nat
  kekLabel : String
deriving DecidableEq, Repr

/-- Session key set; absent keys are `none` (spec section 3: for 1.0.x sessions
only `FNwkSIntKey` and `AppSKey` are present, for 1.1 all four are). -/
structure SessionKeys where
  fNwkSIntKey : Option KeyEnvelope
  sNwkSIntKey : Option KeyEnvelope
  nwkSEncKey : Option KeyEnvelope
  appSKey : Option KeyEnvelope
deriving DecidableEq, Repr

/-- Committed session of a device (spec section 3). -/
structure Session where
  devAddr : Nat
  keys : SessionKeys
  startedAt : Nat
deriving DecidableEq, Repr

/-- Modelled from the spec: the `EndDevice` registry record (spec section 3).
`appKey` is always present; `nwkKey` only for 1.1 devices.  Timestamps are
abstract `Nat` instants. -/
structure EndDevice where
  joinEUI : Nat
  devEUI : Nat
  appKey : List Nat
  nwkKey : Option (List Nat)
  lorawanVersion : MacVersion
  nextDevNonce : Nat
  usedDevNonces : List Nat
  nextJoinNonce : Nat
  networkServerAddress : String
  session : Option Session
  createdAt : Nat
  updatedAt : Nat
deriving DecidableEq, Repr

/-- Decoded join-request MAC payload carried inside a pre-decoded message. -/
structure JoinReqPayload where
  joinEUI : Nat
  devEUI : Nat
  devNonce : Nat
deriving DecidableEq, Repr

/-- Payload variants of a pre-decoded MAC message relevant to `HandleJoin`. -/
inductive MsgPayload where
  | joinRequestPayload (p : JoinReqPayload)
  | joinAcceptPayload
deriving DecidableEq, Repr

/-- MAC header of a pre-decoded message: message type and major version. -/
structure MHDRm where
  mtype : Nat
  major : Nat
deriving DecidableEq, Repr

/-- Pre-decoded MAC message supplied by the Network Server in place of raw
bytes; `payload` is `none` when the oneof payload field is unset. -/
structure MessageM where
  mhdr : MHDRm
  mic : List Nat
  payload : Option MsgPayload
deriving DecidableEq, Repr

/-- Downlink settings carried in the join request (spec 4.5). -/
structure DLSettings where
  optNeg : Bool
  rx1DROffset : Nat
  rx2DR : Nat
deriving DecidableEq, Repr

/-- Packed DLSettings byte: `OptNeg<<7 | Rx1DROffset<<4 | Rx2DR` (spec 4.5). -/
def dlSettingsByte (s : DLSettings) : Nat :=
  (if s.optNeg then 128 else 0) + s.rx1DROffset * 16 + s.rx2DR

/-- Modelled from the spec: the `JoinRequest` RPC input (spec 4.5).  An empty
`rawPayload` models an absent raw payload; `devAddr` is the DevAddr assigned by
the Network Server. -/
structure JoinRequestM where
  rawPayload : List Nat
  payload : Option MessageM
  devAddr : Option Nat
  selectedMacVersion : MacVersion
  netID : Nat
  downlinkSettings : DLSettings
  rxDelay : Nat
  cfList : Option (List Nat)
deriving DecidableEq, Repr

/-- Join-request fields extracted by parsing (either path). -/
structure Parsed where
  mhdr : Nat
  joinEUI : Nat
  devEUI : Nat
  devNonce : Nat
  mic : List Nat
deriving DecidableEq, Repr

/-- Modelled from the spec: `JoinResponse` (spec 4.5, Response). -/
structure JoinResponse where
  rawPayload : List Nat
  sessionKeys : SessionKeys
  lifetime : Nat
deriving DecidableEq, Repr

/-- Modelled from the spec: the frame-codec decode contract (spec 4.1).  A
join-request frame is 23 bytes `MHDR(1) | JoinEUI(8,LSB) | DevEUI(8,LSB) |
DevNonce(2,LSB) | MIC(4)`; decoding fails on wrong length, an MType other than
join-request (top three MHDR bits), or an unsupported Major (low two bits). -/
def decodeJoinRequest (bs : List Nat) : Option Parsed :=
  if bs.length = 23 ∧ bs.headD 0 / 32 = 0 ∧ bs.headD 0 % 4 = 0 then
    some { mhdr := bs.headD 0
           joinEUI := bytesToNat ((bs.drop 1).take 8)
           devEUI := bytesToNat ((bs.drop 9).take 8)
           devNonce := bytesToNat ((bs.drop 17).take 2)
           mic := bs.drop 19 }
  else none

/-- Supported LoRaWAN Major revision: only `LORAWAN_R1 = 0` (spec 4.1). -/
def supportedMajor (m : Nat) : Bool := m = 0

/-- Modelled from the spec: payload acquisition of `HandleJoin` (spec 4.5,
preflight item 2 and 3).  A present raw payload is parsed by the frame codec,
its decode failure being classified `InvalidArgument`; otherwise the decoded
payload must exist, carry a supported Major and a join-request MType, be a
`JoinRequestPayload`, and have non-zero JoinEUI and DevEUI, failures of the
structural conditions being `DataLoss`. -/
def parsePayload (req : JoinRequestM) : Except ErrKind Parsed :=
  if req.rawPayload ≠ [] then
    match decodeJoinRequest req.rawPayload with
    | none => .error .invalidArgument
    | some p => .ok p
  else
    match req.payload with
    | none => .error .dataLoss
    | some msg =>
      if ¬ supportedMajor msg.mhdr.major then .error .invalidArgument
      else if msg.mhdr.mtype ≠ 0 then .error .invalidArgument
      else
        match msg.payload with
        | none => .error .dataLoss
        | some .joinAcceptPayload => .error .dataLoss
        | some (.joinRequestPayload jp) =>
          if jp.joinEUI = 0 then .error .dataLoss
          else if jp.devEUI = 0 then .error .dataLoss
          else .ok { mhdr := msg.mhdr.mtype * 32 + msg.mhdr.major
                     joinEUI := jp.joinEUI
                     devEUI := jp.devEUI
                     devNonce := jp.devNonce
                     mic := msg.mic }

/-- Bit `i` (most-significant first) of an EUI64 value. -/
def euiBit (e i : Nat) : Nat := e / 2 ^ (63 - i) % 2

/-- A JoinEUI matches a configured mask `(value, lengthBits)` when its top
`lengthBits` bits equal those of the mask value (spec section 6). -/
def matchMask (m : Nat × Nat) (e : Nat) : Bool :=
  (List.range m.2).all (fun i => euiBit m.1 i == euiBit e i)

/-- A JoinEUI is accepted when it matches some configured mask. -/
def euiAccepted (masks : List (Nat × Nat)) (e : Nat) : Bool :=
  masks.any (fun m => matchMask m e)

/-- Registry lookup by `(JoinEUI, DevEUI)` (spec 4.3 `get_by_eui`). -/
def findDevice (reg : List EndDevice) (j d : Nat) : Option EndDevice :=
  reg.find? (fun dev => dev.joinEUI == j && dev.devEUI == d)

/-- Byte string over which the join-request MIC is computed (spec 4.1):
`MHDR || JoinEUI || DevEUI || DevNonce`, numeric fields LSB-first. -/
def joinRequestBytes (p : Parsed) : List Nat :=
  p.mhdr :: (le8 p.joinEUI ++ le8 p.devEUI ++ le2 p.devNonce)

/-- State available to the handler once all checks before the nonce policy
have passed.  For a 1.0.x device `nwkKey` equals `appKey`, which the spec says
is used in NwkKey's stead. -/
structure JoinContext where
  parsed : Parsed
  device : EndDevice
  devAddr : Nat
  appKey : List Nat
  nwkKey : List Nat
deriving DecidableEq, Repr

/-- Modelled from the spec: the stages of `HandleJoin` before the nonce policy
(spec 4.5): DevAddr presence, payload parsing, JoinEUI mask check, device
lookup, version-family agreement, root-key availability and MIC verification
(MIC root key is NwkKey for the 1.1 family and AppKey otherwise, mismatch
being `PermissionDenied`). -/
def preNonce (c : BlockCrypto) (masks : List (Nat × Nat)) (reg : List EndDevice)
    (req : JoinRequestM) : Except ErrKind JoinContext :=
  match req.devAddr with
  | none => .error .invalidArgument
  | some addr =>
    match parsePayload req with
    | .error e => .error e
    | .ok p =>
      if ¬ euiAccepted masks p.joinEUI then .error .invalidArgument
      else
        match findDevice reg p.joinEUI p.devEUI with
        | none => .error .notFound
        | some dev =>
          if isV11 dev.lorawanVersion ≠ isV11 req.selectedMacVersion then
            .error .invalidArgument
          else
            match (if isV11 dev.lorawanVersion then dev.nwkKey else some dev.appKey) with
            | none => .error .internal
            | some nk =>
              if p.mic = (c.cmac (if isV11 dev.lorawanVersion then nk else dev.appKey)
                  (joinRequestBytes p)).take 4 then
                .ok { parsed := p, device := dev, devAddr := addr
                      appKey := dev.appKey, nwkKey := nk }
              else .error .permissionDenied

/-- Modelled from the spec: the nonce policy (spec 4.5).  For the 1.1 family a
DevNonce below `nextDevNonce` is rejected, otherwise `nextDevNonce` becomes
`DevNonce + 1` and the DevNonce is appended to `usedDevNonces` (spec scenario
2).  For the 1.0.x family a DevNonce already in `usedDevNonces` is rejected,
otherwise it is appended. -/
def nonceCheck (p : Parsed) (dev : EndDevice) : Except ErrKind EndDevice :=
  if isV11 dev.lorawanVersion then
    if p.devNonce < dev.nextDevNonce then .error .invalidArgument
    else .ok { dev with
               nextDevNonce := p.devNonce + 1
               usedDevNonces := dev.usedDevNonces ++ [p.devNonce] }
  else
    if p.devNonce ∈ dev.usedDevNonces then .error .invalidArgument
    else .ok { dev with usedDevNonces := dev.usedDevNonces ++ [p.devNonce] }

/-- Modelled from the spec: per-version session-key derivation (spec 4.2).
Each key is a single-block AES encryption under the root key of a tagged,
zero-padded input; 1.1 network keys derive from NwkKey over
`JoinNonce || JoinEUI || DevNonce`, `AppSKey` from AppKey over the same input;
1.0.x keys derive from AppKey over `JoinNonce || NetID || DevNonce`. -/
def deriveSessionKeys (c : BlockCrypto) (v11 : Bool) (appK nwkK : List Nat)
    (jn : Nat) (joinEUI : Nat) (netID : Nat) (dn : Nat) : SessionKeys :=
  if v11 then
    let s := le3 jn ++ le8 joinEUI ++ le2 dn
    { fNwkSIntKey := some { key := c.enc nwkK (pad16 (1 :: s)), kekLabel := "" }
      sNwkSIntKey := some { key := c.enc nwkK (pad16 (3 :: s)), kekLabel := "" }
      nwkSEncKey := some { key := c.enc nwkK (pad16 (4 :: s)), kekLabel := "" }
      appSKey := some { key := c.enc appK (pad16 (2 :: s)), kekLabel := "" } }
  else
    let s := le3 jn ++ le3 netID ++ le2 dn
    { fNwkSIntKey := some { key := c.enc appK (pad16 (1 :: s)), kekLabel := "" }
      sNwkSIntKey := none
      nwkSEncKey := none
      appSKey := some { key := c.enc appK (pad16 (2 :: s)), kekLabel := "" } }

/-- Join-accept fields before the MIC (spec 4.1):
`JoinNonce(3,LSB) | NetID(3,LSB) | DevAddr(4,LSB) | DLSettings(1) | RxDelay(1)`. -/
def joinAcceptFields (req : JoinRequestM) (devAddr jn : Nat) : List Nat :=
  le3 jn ++ le3 req.netID ++ le4 devAddr ++ [dlSettingsByte req.downlinkSettings, req.rxDelay]

/-- Modelled from the spec: join-accept encryption (spec 4.1).  The server
applies the AES block-cipher inverse independently to each 16-byte block of
the bytes after MHDR; the payload is 16 bytes, or 32 with a CFList. -/
def encryptJoinAccept (c : BlockCrypto) (key pld : List Nat) : List Nat :=
  if pld.length ≤ 16 then c.dec key pld
  else c.dec key (pld.take 16) ++ c.dec key (pld.drop 16)

/-- Join-accept MIC (spec 4.1): with OptNeg set on a 1.1 device the extended
input `JoinReqType(0xFF) || JoinEUI || DevNonce || MHDR || fields` is CMACed
under JSIntKey (`AES128(NwkKey, 0x06 || DevEUI || pad16)`); otherwise the MIC
is the CMAC under AppKey of `MHDR || fields`.  The MIC is the first 4 bytes. -/
def joinAcceptMic (c : BlockCrypto) (optNeg11 : Bool) (appK nwkK : List Nat)
    (p : Parsed) (fields : List Nat) : List Nat :=
  if optNeg11 then
    (c.cmac (c.enc nwkK (pad16 (6 :: le8 p.devEUI)))
      (255 :: (le8 p.joinEUI ++ le2 p.devNonce ++ (32 :: fields)))).take 4
  else (c.cmac appK (32 :: fields)).take 4

/-- Join-accept encryption key (spec 4.1): NwkKey for a 1.1 device with
OptNeg set, AppKey otherwise. -/
def joinAcceptEncKey (optNeg11 : Bool) (appK nwkK : List Nat) : List Nat :=
  if optNeg11 then nwkK else appK

/-- Modelled from the spec: the tail of `HandleJoin` after the nonce policy
(spec 4.5): JoinNonce allocation with exhaustion at `2^24 - 1`, key
derivation, join-accept construction (1.1 with OptNeg set uses the
JSIntKey-based extended MIC and NwkKey encryption, otherwise the AppKey MIC
and AppKey encryption), and the committed device record with the new session
and `updatedAt`. -/
def finishJoin (c : BlockCrypto) (req : JoinRequestM) (ctx : JoinContext)
    (dev : EndDevice) (now : Nat) : Except ErrKind (JoinResponse × EndDevice) :=
  if dev.nextJoinNonce = 2 ^ 24 - 1 then .error .resourceExhausted
  else
    let jn := dev.nextJoinNonce
    let v11 := isV11 dev.lorawanVersion
    let sk := deriveSessionKeys c v11 ctx.appKey ctx.nwkKey jn ctx.parsed.joinEUI req.netID ctx.parsed.devNonce
    let fields := joinAcceptFields req ctx.devAddr jn
    let optNeg11 := v11 && req.downlinkSettings.optNeg
    let mic := joinAcceptMic c optNeg11 ctx.appKey ctx.nwkKey ctx.parsed fields
    let raw := 32 :: encryptJoinAccept c (joinAcceptEncKey optNeg11 ctx.appKey ctx.nwkKey)
      (fields ++ (req.cfList.getD []) ++ mic)
    let dev2 := { dev with
                  nextJoinNonce := jn + 1
                  session := some { devAddr := ctx.devAddr, keys := sk, startedAt := now }
                  updatedAt := now }
    .ok ({ rawPayload := raw, sessionKeys := sk, lifetime := 0 }, dev2)

/-- Modelled from the spec: `HandleJoin` (spec 4.5).  The registry is the list
of provisioned devices; on success the returned device is the record committed
by the registry transform, and on error nothing is committed, so the stored
record is unchanged. -/
def handleJoin (c : BlockCrypto) (masks : List (Nat × Nat)) (reg : List EndDevice)
    (req : JoinRequestM) (now : Nat) : Except ErrKind (JoinResponse × EndDevice) :=
  match preNonce c masks reg req with
  | .error e => .error e
  | .ok ctx =>
    match nonceCheck ctx.parsed ctx.device with
    | .error e => .error e
    | .ok dev2 => finishJoin c req ctx dev2 now

/-- Modelled from the spec: `GetNwkSKeys` errors (spec 4.6 and section 7). -/
inductive JsError where
  | registryOperation (cause : String)
  | noFNwkSIntKey
  | noSNwkSIntKey
  | noNwkSEncKey
deriving DecidableEq, Repr

/-- Error kind of a `GetNwkSKeys` error: registry failures are `Internal`,
missing stored keys are `FailedPrecondition` (spec 4.6). -/
def jsErrorKind : JsError → ErrKind
  | .registryOperation _ => .internal
  | _ => .failedPrecondition

/-- Network-side session key response of `GetNwkSKeys`. -/
structure NwkSKeysResponse where
  fNwkSIntKey : KeyEnvelope
  sNwkSIntKey : KeyEnvelope
  nwkSEncKey : KeyEnvelope
deriving DecidableEq, Repr

/-- Modelled from the spec: `GetNwkSKeys` (spec 4.6).  `lookup` is the result
of the session-key registry `get_by_id`; a registry error is wrapped in
`ErrRegistryOperation`, a stored record missing one of the three network keys
yields the corresponding `FailedPrecondition` error, and otherwise the three
stored envelopes are returned unchanged. -/
def getNwkSKeys (lookup : Except String SessionKeys) : Except JsError NwkSKeysResponse :=
  match lookup with
  | .error e => .error (.registryOperation e)
  | .ok sk =>
    match sk.fNwkSIntKey with
    | none => .error .noFNwkSIntKey
    | some f =>
      match sk.sNwkSIntKey with
      | none => .error .noSNwkSIntKey
      | some s =>
        match sk.nwkSEncKey with
        | none => .error .noNwkSEncKey
        | some n => .ok { fNwkSIntKey := f, sNwkSIntKey := s, nwkSEncKey := n }

/-- Result of the HTTP client `Do` call in `HTTPClientSink.Process`
(`webhooks.go`): either a transport error or a response status code. -/
inductive DoResult where
  | failure (err : String)
  | response (statusCode : Nat)
deriving DecidableEq, Repr

/-- Error returned by `HTTPClientSink.Process`: either the client error from
`Do`, or `errRequest` carrying the response status code. -/
inductive ProcessError where
  | clientError (err : String)
  | errRequest (code : Nat)
deriving DecidableEq, Repr

/-- Error kind of a `Process` error: `errRequest` is defined with
`errors.DefineUnavailable` (`webhooks.go` line 41); the client error keeps the
kind of the underlying transport failure. -/
def processErrorKind : ProcessError → Option ErrKind
  | .clientError _ => none
  | .errRequest _ => some .unavailable

/-- Embedding of `HTTPClientSink.Process` (`webhooks.go` lines 44-54): a `Do`
failure is returned as is; a status code in 200..299 yields `nil`; any other
status yields `errRequest` with the code. -/
def httpProcess : DoResult → Option ProcessError
  | .failure e => some (.clientError e)
  | .response code =>
    if 200 ≤ code ∧ code ≤ 299 then none
    else some (.errRequest code)

/-- Trivial block cipher used to evaluate the handler at concrete inputs: the
handler theorems hold for every `BlockCrypto`, so any instance witnesses them. -/
def cW : BlockCrypto := { enc := fun _ b => b, dec := fun _ b => b, cmac := fun _ m => m }

/-- JoinEUI mask accepting every JoinEUI (zero mask length). -/
def masksW : List (Nat × Nat) := [(0, 0)]

/-- Concrete AppKey fixture. -/
def appKeyW : List Nat := List.replicate 16 7

/-- Concrete NwkKey fixture. -/
def nwkKeyW : List Nat := List.replicate 16 9

/-- Concrete 1.1 device fixture. -/
def devW : EndDevice :=
  { joinEUI := 1, devEUI := 2, appKey := appKeyW, nwkKey := some nwkKeyW
    lorawanVersion := .v1_1, nextDevNonce := 3, usedDevNonces := [0]
    nextJoinNonce := 10, networkServerAddress := "ns", session := none
    createdAt := 0, updatedAt := 0 }

/-- Raw join-request frame fixture for `devW` with DevNonce 5; the MIC equals
the first four bytes of `joinRequestBytes` because `cW.cmac` is the identity. -/
def rawW : List Nat :=
  [0, 1, 0, 0, 0, 0, 0, 0, 0, 2, 0, 0, 0, 0, 0, 0, 0, 5, 0, 0, 1, 0, 0]

/-- Concrete join-request fixture addressed to `devW`. -/
def reqW : JoinRequestM :=
  { rawPayload := rawW, payload := none, devAddr := some 6
    selectedMacVersion := .v1_1, netID := 1
    downlinkSettings := { optNeg := true, rx1DROffset := 0, rx2DR := 0 }
    rxDelay := 1, cfList := none }

/-- Parse result of `rawW`. -/
def parsedW : Parsed := { mhdr := 0, joinEUI := 1, devEUI := 2, devNonce := 5, mic := [0, 1, 0, 0] }

/-- Join context reached by `reqW` against `devW`. -/
def ctxW : JoinContext :=
  { parsed := parsedW, device := devW, devAddr := 6, appKey := appKeyW, nwkKey := nwkKeyW }

/-- Device record produced by the 1.1 nonce policy on `devW` with DevNonce 5. -/
def devN2W : EndDevice := { devW with nextDevNonce := 6, usedDevNonces := [0, 5] }

/-- Concrete 1.0 device fixture. -/
def dev10W : EndDevice := { devW with lorawanVersion := .v1_0, nwkKey := none }

/-- Concrete join-request fixture for the 1.0 device. -/
def req10W : JoinRequestM := { reqW with selectedMacVersion := .v1_0 }

/-- Join context reached by `req10W` against `dev10W`; for a 1.0.x device the
context's network root key is the AppKey. -/
def ctx10W : JoinContext :=
  { parsed := parsedW, device := dev10W, devAddr := 6, appKey := appKeyW, nwkKey := appKeyW }

/-- Device fixture whose JoinNonce space is exhausted. -/
def devExW : EndDevice := { devW with nextJoinNonce := 2 ^ 24 - 1 }

/-- Join context reached by `reqW` against `devExW`. -/
def ctxExW : JoinContext := { ctxW with device := devExW }

/-- Device record produced by the nonce policy on `devExW`. -/
def devEx2W : EndDevice := { devExW with nextDevNonce := 6, usedDevNonces := [0, 5] }

/-- Join-request fixture with neither a raw payload nor a decoded payload. -/
def reqNoPldW : JoinRequestM := { reqW with rawPayload := [], payload := none }

/-- Join-request fixture with an undecodable raw payload. -/
def reqBadRawW : JoinRequestM := { reqW with rawPayload := [1, 2, 3] }

/-- Stored session-key fixture holding all three network keys. -/
def skW : SessionKeys :=
  { fNwkSIntKey := some { key := [1], kekLabel := "a" }
    sNwkSIntKey := some { key := [2], kekLabel := "b" }
    nwkSEncKey := some { key := [3], kekLabel := "c" }
    appSKey := none }

/-- The nonce policy never changes any device field other than the DevNonce
state: identifiers, root keys, version, addresses, session, timestamps and the
JoinNonce counter are preserved. -/
theorem nonceCheck_frame {p : Parsed} {d d2 : EndDevice}
    (h : nonceCheck p d = .ok d2) :
    d2.joinEUI = d.joinEUI ∧ d2.devEUI = d.devEUI ∧ d2.appKey = d.appKey ∧
    d2.nwkKey = d.nwkKey ∧ d2.lorawanVersion = d.lorawanVersion ∧
    d2.networkServerAddress = d.networkServerAddress ∧ d2.session = d.session ∧
    d2.createdAt = d.createdAt ∧ d2.updatedAt = d.updatedAt ∧
    d2.nextJoinNonce = d.nextJoinNonce := by
  unfold nonceCheck at h
  split at h
  · split at h
    · simp at h
    · injection h with h
      subst h
      exact ⟨rfl, rfl, rfl, rfl, rfl, rfl, rfl, rfl, rfl, rfl⟩
  · split at h
    · simp at h
    · injection h with h
      subst h
      exact ⟨rfl, rfl, rfl, rfl, rfl, rfl, rfl, rfl, rfl, rfl⟩

/-- Facts recovered from a successful pre-nonce stage: the context's DevAddr is
the one carried in the request, its AppKey is the device's AppKey, its network
root key is the device's NwkKey for the 1.1 family and the AppKey for the
1.0.x family, and the device was found in the registry by the parsed EUIs. -/
theorem preNonce_ok_spec {c : BlockCrypto} {masks : List (Nat × Nat)}
    {reg : List EndDevice} {req : JoinRequestM} {ctx : JoinContext}
    (h : preNonce c masks reg req = .ok ctx) :
    req.devAddr = some ctx.devAddr ∧
    ctx.appKey = ctx.device.appKey ∧
    (isV11 ctx.device.lorawanVersion = true → ctx.device.nwkKey = some ctx.nwkKey) ∧
    (isV11 ctx.device.lorawanVersion = false → ctx.nwkKey = ctx.device.appKey) ∧
    findDevice reg ctx.parsed.joinEUI ctx.parsed.devEUI = some ctx.device := by
  unfold preNonce at h
  split at h
  · simp at h
  · next addr hda =>
    split at h
    · simp at h
    · next p hp =>
      split at h
      · simp at h
      · split at h
        · simp at h
        · next dev hf =>
          split at h
          · simp at h
          · split at h
            · simp at h
            · next nk hk =>
              split at h
              · next hv =>
                split at h
                · injection h with h
                  subst h
                  rw [hv] at hk
                  simp at hk
                  exact ⟨hda, rfl, fun _ => hk, fun hv0 => absurd hv (by simp [hv0]), hf⟩
                · simp at h
              · next hv =>
                split at h
                · injection h with h
                  subst h
                  rw [show isV11 dev.lorawanVersion = false by simpa using hv] at hk
                  simp at hk
                  exact ⟨hda, rfl, fun hv1 => absurd hv1 hv, fun _ => hk.symm, hf⟩
                · simp at h

/-- The join-accept fields block is always 12 bytes. -/
theorem joinAcceptFields_length (req : JoinRequestM) (da jn : Nat) :
    (joinAcceptFields req da jn).length = 12 := by
  simp [joinAcceptFields, le3, le4, leBytes]

/-- The join-accept MIC is at most 4 bytes. -/
theorem joinAcceptMic_length_le (c : BlockCrypto) (b : Bool) (appK nwkK : List Nat)
    (p : Parsed) (fields : List Nat) :
    (joinAcceptMic c b appK nwkK p fields).length ≤ 4 := by
  unfold joinAcceptMic
  split <;> simp

/-- On a payload of at most one block, join-accept encryption is a single
application of the block-cipher inverse. -/
theorem encryptJoinAccept_small (c : BlockCrypto) (key pld : List Nat)
    (h : pld.length ≤ 16) : encryptJoinAccept c key pld = c.dec key pld := by
  simp [encryptJoinAccept, h]

/-- C10: `HTTPClientSink.Process` returns nil exactly when the response status
code is between 200 and 299 inclusive; any other status code yields the
Unavailable error `errRequest` carrying that status code, and a failed client
call returns that failure. -/
theorem httpProcess_status_contract (code : Nat) (e : String) :
    (httpProcess (.response code) = none ↔ (200 ≤ code ∧ code ≤ 299)) ∧
    (¬ (200 ≤ code ∧ code ≤ 299) →
      httpProcess (.response code) = some (.errRequest code) ∧
      processErrorKind (.errRequest code) = some .unavailable) ∧
    httpProcess (.failure e) = some (.clientError e) := by
  refine ⟨?_, ?_, rfl⟩
  · simp only [httpProcess]
    split <;> simp_all
  · intro h
    refine ⟨?_, rfl⟩
    simp only [httpProcess]
    rw [if_neg h]

/-- C10 witness: status 500 yields the Unavailable `errRequest` error. -/
theorem httpProcess_status_contract_witness :
    httpProcess (.response 500) = some (.errRequest 500) ∧
    processErrorKind (.errRequest 500) = some .unavailable :=
  (httpProcess_status_contract 500 "x").2.1 (by decide)

/-- C8: `GetNwkSKeys` wraps a registry failure in the Internal
`ErrRegistryOperation`, reports the FailedPrecondition errors
`ErrNoFNwkSIntKey`, `ErrNoSNwkSIntKey`, `ErrNoNwkSEncKey` when the stored
record lacks the corresponding network key, and otherwise returns the three
stored network-key envelopes unchanged. -/
theorem getNwkSKeys_contract (e : String) (sk : SessionKeys) (f s n : KeyEnvelope) :
    (getNwkSKeys (.error e) = .error (.registryOperation e) ∧
      jsErrorKind (.registryOperation e) = .internal) ∧
    (sk.fNwkSIntKey = none → getNwkSKeys (.ok sk) = .error .noFNwkSIntKey) ∧
    (sk.fNwkSIntKey = some f → sk.sNwkSIntKey = none →
      getNwkSKeys (.ok sk) = .error .noSNwkSIntKey) ∧
    (sk.fNwkSIntKey = some f → sk.sNwkSIntKey = some s → sk.nwkSEncKey = none →
      getNwkSKeys (.ok sk) = .error .noNwkSEncKey) ∧
    (sk.fNwkSIntKey = some f → sk.sNwkSIntKey = some s → sk.nwkSEncKey = some n →
      getNwkSKeys (.ok sk) = .ok { fNwkSIntKey := f, sNwkSIntKey := s, nwkSEncKey := n }) ∧
    jsErrorKind .noFNwkSIntKey = .failedPrecondition ∧
    jsErrorKind .noSNwkSIntKey = .failedPrecondition ∧
    jsErrorKind .noNwkSEncKey = .failedPrecondition := by
  refine ⟨⟨rfl, rfl⟩, ?_, ?_, ?_, ?_, rfl, rfl, rfl⟩ <;>
    · intros
      unfold getNwkSKeys
      simp_all

/-- C8 witness: a complete record is returned unchanged and a registry error
is wrapped. -/
theorem getNwkSKeys_contract_witness :
    getNwkSKeys (.ok skW) = .ok
      { fNwkSIntKey := { key := [1], kekLabel := "a" }
        sNwkSIntKey := { key := [2], kekLabel := "b" }
        nwkSEncKey := { key := [3], kekLabel := "c" } } ∧
    getNwkSKeys (.error "boom") = .error (.registryOperation "boom") := by
  have h := getNwkSKeys_contract "boom" skW
    { key := [1], kekLabel := "a" } { key := [2], kekLabel := "b" } { key := [3], kekLabel := "c" }
  exact ⟨h.2.2.2.2.1 rfl rfl rfl, h.1.1⟩

/-- C1: for a `HandleJoin` whose pre-nonce stages pass against a 1.1 device,
a DevNonce at least the stored `nextDevNonce` is accepted (when the JoinNonce
space is not exhausted) and the committed record has `nextDevNonce = DevNonce
+ 1` and `usedDevNonces` equal to the old list with the DevNonce appended; a
smaller DevNonce makes `HandleJoin` fail with `InvalidArgument`, committing
nothing, so the stored record is unchanged. -/
theorem handleJoin_v11_devnonce_policy (c : BlockCrypto) (masks : List (Nat × Nat))
    (reg : List EndDevice) (req : JoinRequestM) (now : Nat) (ctx : JoinContext)
    (hpre : preNonce c masks reg req = .ok ctx)
    (hver : isV11 ctx.device.lorawanVersion = true) :
    (ctx.device.nextDevNonce ≤ ctx.parsed.devNonce →
      ctx.device.nextJoinNonce ≠ 2 ^ 24 - 1 →
      ∃ resp dev2, handleJoin c masks reg req now = .ok (resp, dev2) ∧
        dev2.nextDevNonce = ctx.parsed.devNonce + 1 ∧
        dev2.usedDevNonces = ctx.device.usedDevNonces ++ [ctx.parsed.devNonce]) ∧
    (ctx.parsed.devNonce < ctx.device.nextDevNonce →
      handleJoin c masks reg req now = .error .invalidArgument) := by
  constructor
  · intro hge hjn
    have hnlt : ¬ (ctx.parsed.devNonce < ctx.device.nextDevNonce) := by omega
    simp only [handleJoin, hpre, nonceCheck, hver, if_true, hnlt, if_false, finishJoin]
    rw [if_neg (by simpa using hjn)]
    exact ⟨_, _, rfl, rfl, rfl⟩
  · intro hlt
    simp [handleJoin, hpre, nonceCheck, hver, hlt]

/-- C1 witness: the 1.1 fixture with DevNonce 5 against stored
`nextDevNonce = 3` is accepted and commits the advanced nonce state. -/
theorem handleJoin_v11_devnonce_policy_witness :
    ∃ resp dev2, handleJoin cW masksW [devW] reqW 0 = .ok (resp, dev2) ∧
      dev2.nextDevNonce = ctxW.parsed.devNonce + 1 ∧
      dev2.usedDevNonces = ctxW.device.usedDevNonces ++ [ctxW.parsed.devNonce] :=
  (handleJoin_v11_devnonce_policy cW masksW [devW] reqW 0 ctxW rfl rfl).1
    (by decide) (by decide)

/-- C2: for a `HandleJoin` whose pre-nonce stages pass against a 1.0.x device,
a DevNonce already in `usedDevNonces` makes the call fail with
`InvalidArgument`, committing nothing, so the stored record is unchanged;
otherwise (when the JoinNonce space is not exhausted) the join is accepted and
the committed `usedDevNonces` is the old list with the DevNonce appended, so
as a set it is the old set united with the DevNonce. -/
theorem handleJoin_v10_devnonce_policy (c : BlockCrypto) (masks : List (Nat × Nat))
    (reg : List EndDevice) (req : JoinRequestM) (now : Nat) (ctx : JoinContext)
    (hpre : preNonce c masks reg req = .ok ctx)
    (hver : isV11 ctx.device.lorawanVersion = false) :
    (ctx.parsed.devNonce ∈ ctx.device.usedDevNonces →
      handleJoin c masks reg req now = .error .invalidArgument) ∧
    (ctx.parsed.devNonce ∉ ctx.device.usedDevNonces →
      ctx.device.nextJoinNonce ≠ 2 ^ 24 - 1 →
      ∃ resp dev2, handleJoin c masks reg req now = .ok (resp, dev2) ∧
        dev2.usedDevNonces = ctx.device.usedDevNonces ++ [ctx.parsed.devNonce] ∧
        ∀ x, x ∈ dev2.usedDevNonces ↔
          (x ∈ ctx.device.usedDevNonces ∨ x = ctx.parsed.devNonce)) := by
  constructor
  · intro hmem
    simp [handleJoin, hpre, nonceCheck, hver, hmem]
  · intro hmem hjn
    simp only [handleJoin, hpre, nonceCheck, hver, Bool.false_eq_true, if_false, hmem,
      finishJoin]
    rw [if_neg (by simpa using hjn)]
    exact ⟨_, _, rfl, rfl, by simp⟩

/-- C2 witness: the 1.0 fixture with fresh DevNonce 5 is accepted and commits
the appended nonce list. -/
theorem handleJoin_v10_devnonce_policy_witness :
    ∃ resp dev2, handleJoin cW masksW [dev10W] req10W 0 = .ok (resp, dev2) ∧
      dev2.usedDevNonces = ctx10W.device.usedDevNonces ++ [ctx10W.parsed.devNonce] ∧
      ∀ x, x ∈ dev2.usedDevNonces ↔
        (x ∈ ctx10W.device.usedDevNonces ∨ x = ctx10W.parsed.devNonce) :=
  (handleJoin_v10_devnonce_policy cW masksW [dev10W] req10W 0 ctx10W rfl rfl).2
    (by decide) (by decide)

/-- C3: for a `HandleJoin` that passes all stages up to and including the nonce
policy, an old `nextJoinNonce` of `2^24 - 1` makes the call fail with
`ResourceExhausted`; on success the committed `nextJoinNonce` is the old value
plus one and the accept body handed to the encryption starts with the old
`nextJoinNonce` encoded on three bytes least-significant-byte first. -/
theorem handleJoin_joinnonce_policy (c : BlockCrypto) (masks : List (Nat × Nat))
    (reg : List EndDevice) (req : JoinRequestM) (now : Nat) (ctx : JoinContext)
    (dev2 : EndDevice)
    (hpre : preNonce c masks reg req = .ok ctx)
    (hnc : nonceCheck ctx.parsed ctx.device = .ok dev2) :
    (ctx.device.nextJoinNonce = 2 ^ 24 - 1 →
      handleJoin c masks reg req now = .error .resourceExhausted) ∧
    (∀ resp dev3, handleJoin c masks reg req now = .ok (resp, dev3) →
      dev3.nextJoinNonce = ctx.device.nextJoinNonce + 1 ∧
      ∃ key rest, resp.rawPayload =
        32 :: encryptJoinAccept c key (le3 ctx.device.nextJoinNonce ++ rest)) := by
  have hjn2 : dev2.nextJoinNonce = ctx.device.nextJoinNonce :=
    (nonceCheck_frame hnc).2.2.2.2.2.2.2.2.2
  constructor
  · intro hex
    simp only [handleJoin, hpre, hnc, finishJoin]
    rw [if_pos (by rw [hjn2, hex])]
  · intro resp dev3 hsucc
    simp only [handleJoin, hpre, hnc, finishJoin] at hsucc
    split at hsucc
    · simp at hsucc
    · simp only [Except.ok.injEq, Prod.mk.injEq] at hsucc
      obtain ⟨hresp, hdev⟩ := hsucc
      subst hresp
      subst hdev
      constructor
      · show dev2.nextJoinNonce + 1 = ctx.device.nextJoinNonce + 1
        rw [hjn2]
      · refine ⟨joinAcceptEncKey (isV11 dev2.lorawanVersion && req.downlinkSettings.optNeg)
          ctx.appKey ctx.nwkKey,
          le3 req.netID ++ le4 ctx.devAddr ++
            [dlSettingsByte req.downlinkSettings, req.rxDelay] ++ req.cfList.getD [] ++
            joinAcceptMic c (isV11 dev2.lorawanVersion && req.downlinkSettings.optNeg)
              ctx.appKey ctx.nwkKey ctx.parsed
              (joinAcceptFields req ctx.devAddr dev2.nextJoinNonce), ?_⟩
        show 32 :: encryptJoinAccept c _
            (joinAcceptFields req ctx.devAddr dev2.nextJoinNonce ++ req.cfList.getD [] ++
              joinAcceptMic c (isV11 dev2.lorawanVersion && req.downlinkSettings.optNeg)
                ctx.appKey ctx.nwkKey ctx.parsed
                (joinAcceptFields req ctx.devAddr dev2.nextJoinNonce)) = _
        rw [hjn2]
        simp [joinAcceptFields, List.append_assoc]

/-- C3 witness: the fixture device with exhausted JoinNonce space is refused
with `ResourceExhausted`. -/
theorem handleJoin_joinnonce_policy_witness :
    handleJoin cW masksW [devExW] reqW 0 = .error .resourceExhausted :=
  (handleJoin_joinnonce_policy cW masksW [devExW] reqW 0 ctxExW devEx2W rfl rfl).1 rfl

/-- C4: on a successful `HandleJoin` without CFList, the response raw payload
is exactly the MHDR byte `0x20` followed by one application of the block-cipher
inverse to the body `JoinNonce(3,LSB) || NetID(3,LSB) || DevAddr(4,LSB) ||
DLSettings || RxDelay || MIC` (the fields and MIC given by `joinAcceptFields`
and `joinAcceptMic`), encrypted under NwkKey for a 1.1 device with OptNeg set
and under AppKey for a 1.0.x device. -/
theorem handleJoin_accept_encryption (c : BlockCrypto) (masks : List (Nat × Nat))
    (reg : List EndDevice) (req : JoinRequestM) (now : Nat) (ctx : JoinContext)
    (dev2 : EndDevice)
    (hpre : preNonce c masks reg req = .ok ctx)
    (hnc : nonceCheck ctx.parsed ctx.device = .ok dev2)
    (hcf : req.cfList = none) :
    ∀ resp dev3, handleJoin c masks reg req now = .ok (resp, dev3) →
      (isV11 ctx.device.lorawanVersion = true → req.downlinkSettings.optNeg = true →
        resp.rawPayload = 32 :: c.dec ctx.nwkKey
          (joinAcceptFields req ctx.devAddr ctx.device.nextJoinNonce ++
            joinAcceptMic c true ctx.appKey ctx.nwkKey ctx.parsed
              (joinAcceptFields req ctx.devAddr ctx.device.nextJoinNonce))) ∧
      (isV11 ctx.device.lorawanVersion = false →
        resp.rawPayload = 32 :: c.dec ctx.appKey
          (joinAcceptFields req ctx.devAddr ctx.device.nextJoinNonce ++
            joinAcceptMic c false ctx.appKey ctx.nwkKey ctx.parsed
              (joinAcceptFields req ctx.devAddr ctx.device.nextJoinNonce))) := by
  intro resp dev3 hsucc
  have hfr := nonceCheck_frame hnc
  have hver2 : dev2.lorawanVersion = ctx.device.lorawanVersion := hfr.2.2.2.2.1
  have hjn2 : dev2.nextJoinNonce = ctx.device.nextJoinNonce :=
    hfr.2.2.2.2.2.2.2.2.2
  simp only [handleJoin, hpre, hnc, finishJoin] at hsucc
  split at hsucc
  · simp at hsucc
  · simp only [Except.ok.injEq, Prod.mk.injEq] at hsucc
    obtain ⟨hresp, hdev⟩ := hsucc
    subst hresp
    constructor
    · intro hv ho
      have hlen : (joinAcceptFields req ctx.devAddr ctx.device.nextJoinNonce ++
          joinAcceptMic c true ctx.appKey ctx.nwkKey ctx.parsed
            (joinAcceptFields req ctx.devAddr ctx.device.nextJoinNonce)).length ≤ 16 := by
        have hm := joinAcceptMic_length_le c true ctx.appKey ctx.nwkKey ctx.parsed
          (joinAcceptFields req ctx.devAddr ctx.device.nextJoinNonce)
        rw [List.length_append, joinAcceptFields_length]
        omega
      simp only [hver2, hv, ho, Bool.and_self, joinAcceptEncKey, if_true, hjn2, hcf,
        Option.getD_none, List.append_nil]
      rw [encryptJoinAccept_small c ctx.nwkKey _ hlen]
    · intro hv
      have hlen : (joinAcceptFields req ctx.devAddr ctx.device.nextJoinNonce ++
          joinAcceptMic c false ctx.appKey ctx.nwkKey ctx.parsed
            (joinAcceptFields req ctx.devAddr ctx.device.nextJoinNonce)).length ≤ 16 := by
        have hm := joinAcceptMic_length_le c false ctx.appKey ctx.nwkKey ctx.parsed
          (joinAcceptFields req ctx.devAddr ctx.device.nextJoinNonce)
        rw [List.length_append, joinAcceptFields_length]
        omega
      simp only [hver2, hv, Bool.false_and, joinAcceptEncKey, Bool.false_eq_true,
        if_false, hjn2, hcf, Option.getD_none, List.append_nil]
      rw [encryptJoinAccept_small c ctx.appKey _ hlen]

/-- C4 witness: the 1.1 fixture with OptNeg produces the NwkKey-encrypted
accept frame. -/
theorem handleJoin_accept_encryption_witness :
    ∃ resp dev3, handleJoin cW masksW [devW] reqW 0 = .ok (resp, dev3) ∧
      resp.rawPayload = 32 :: cW.dec ctxW.nwkKey
        (joinAcceptFields reqW ctxW.devAddr ctxW.device.nextJoinNonce ++
          joinAcceptMic cW true ctxW.appKey ctxW.nwkKey ctxW.parsed
            (joinAcceptFields reqW ctxW.devAddr ctxW.device.nextJoinNonce)) := by
  obtain ⟨resp, dev3, hrun⟩ :
      ∃ resp dev3, handleJoin cW masksW [devW] reqW 0 = .ok (resp, dev3) := ⟨_, _, rfl⟩
  exact ⟨resp, dev3, hrun,
    (handleJoin_accept_encryption cW masksW [devW] reqW 0 ctxW devN2W rfl rfl rfl
      resp dev3 hrun).1 rfl rfl⟩

/-- C5: on a successful `HandleJoin` against a 1.1 device the response session
keys contain exactly FNwkSIntKey, SNwkSIntKey and NwkSEncKey, each a
single-block AES derivation from the device NwkKey over JoinNonce, JoinEUI and
DevNonce, plus AppSKey derived from AppKey over the same inputs; against a
1.0.x device they contain exactly FNwkSIntKey and AppSKey, both derived from
AppKey over JoinNonce, NetID and DevNonce. -/
theorem handleJoin_session_key_derivation (c : BlockCrypto) (masks : List (Nat × Nat))
    (reg : List EndDevice) (req : JoinRequestM) (now : Nat) (ctx : JoinContext)
    (dev2 : EndDevice)
    (hpre : preNonce c masks reg req = .ok ctx)
    (hnc : nonceCheck ctx.parsed ctx.device = .ok dev2) :
    ∀ resp dev3, handleJoin c masks reg req now = .ok (resp, dev3) →
      ctx.appKey = ctx.device.appKey ∧
      (isV11 ctx.device.lorawanVersion = true →
        ctx.device.nwkKey = some ctx.nwkKey ∧
        resp.sessionKeys.fNwkSIntKey = some ⟨c.enc ctx.nwkKey (pad16 (1 ::
          (le3 ctx.device.nextJoinNonce ++ le8 ctx.parsed.joinEUI ++
            le2 ctx.parsed.devNonce))), ""⟩ ∧
        resp.sessionKeys.sNwkSIntKey = some ⟨c.enc ctx.nwkKey (pad16 (3 ::
          (le3 ctx.device.nextJoinNonce ++ le8 ctx.parsed.joinEUI ++
            le2 ctx.parsed.devNonce))), ""⟩ ∧
        resp.sessionKeys.nwkSEncKey = some ⟨c.enc ctx.nwkKey (pad16 (4 ::
          (le3 ctx.device.nextJoinNonce ++ le8 ctx.parsed.joinEUI ++
            le2 ctx.parsed.devNonce))), ""⟩ ∧
        resp.sessionKeys.appSKey = some ⟨c.enc ctx.appKey (pad16 (2 ::
          (le3 ctx.device.nextJoinNonce ++ le8 ctx.parsed.joinEUI ++
            le2 ctx.parsed.devNonce))), ""⟩) ∧
      (isV11 ctx.device.lorawanVersion = false →
        ctx.nwkKey = ctx.device.appKey ∧
        resp.sessionKeys.fNwkSIntKey = some ⟨c.enc ctx.appKey (pad16 (1 ::
          (le3 ctx.device.nextJoinNonce ++ le3 req.netID ++
            le2 ctx.parsed.devNonce))), ""⟩ ∧
        resp.sessionKeys.appSKey = some ⟨c.enc ctx.appKey (pad16 (2 ::
          (le3 ctx.device.nextJoinNonce ++ le3 req.netID ++
            le2 ctx.parsed.devNonce))), ""⟩ ∧
        resp.sessionKeys.sNwkSIntKey = none ∧
        resp.sessionKeys.nwkSEncKey = none) := by
  intro resp dev3 hsucc
  have hps := preNonce_ok_spec hpre
  have hfr := nonceCheck_frame hnc
  have hver2 : dev2.lorawanVersion = ctx.device.lorawanVersion := hfr.2.2.2.2.1
  have hjn2 : dev2.nextJoinNonce = ctx.device.nextJoinNonce :=
    hfr.2.2.2.2.2.2.2.2.2
  simp only [handleJoin, hpre, hnc, finishJoin] at hsucc
  split at hsucc
  · simp at hsucc
  · simp only [Except.ok.injEq, Prod.mk.injEq] at hsucc
    obtain ⟨hresp, hdev⟩ := hsucc
    subst hresp
    refine ⟨hps.2.1, ?_, ?_⟩
    · intro hv
      refine ⟨hps.2.2.1 hv, ?_, ?_, ?_, ?_⟩ <;>
        simp only [hver2, hv, hjn2, deriveSessionKeys, if_true]
    · intro hv
      refine ⟨hps.2.2.2.1 hv, ?_, ?_, ?_, ?_⟩ <;>
        simp only [hver2, hv, hjn2, deriveSessionKeys, Bool.false_eq_true, if_false]

/-- C5 witness: the 1.1 fixture yields all four session keys with the stated
derivations. -/
theorem handleJoin_session_key_derivation_witness :
    ∃ resp dev3, handleJoin cW masksW [devW] reqW 0 = .ok (resp, dev3) ∧
      ctxW.device.nwkKey = some ctxW.nwkKey ∧
      resp.sessionKeys.fNwkSIntKey = some ⟨cW.enc ctxW.nwkKey (pad16 (1 ::
        (le3 ctxW.device.nextJoinNonce ++ le8 ctxW.parsed.joinEUI ++
          le2 ctxW.parsed.devNonce))), ""⟩ ∧
      resp.sessionKeys.sNwkSIntKey = some ⟨cW.enc ctxW.nwkKey (pad16 (3 ::
        (le3 ctxW.device.nextJoinNonce ++ le8 ctxW.parsed.joinEUI ++
          le2 ctxW.parsed.devNonce))), ""⟩ ∧
      resp.sessionKeys.nwkSEncKey = some ⟨cW.enc ctxW.nwkKey (pad16 (4 ::
        (le3 ctxW.device.nextJoinNonce ++ le8 ctxW.parsed.joinEUI ++
          le2 ctxW.parsed.devNonce))), ""⟩ ∧
      resp.sessionKeys.appSKey = some ⟨cW.enc ctxW.appKey (pad16 (2 ::
        (le3 ctxW.device.nextJoinNonce ++ le8 ctxW.parsed.joinEUI ++
          le2 ctxW.parsed.devNonce))), ""⟩ := by
  obtain ⟨resp, dev3, hrun⟩ :
      ∃ resp dev3, handleJoin cW masksW [devW] reqW 0 = .ok (resp, dev3) := ⟨_, _, rfl⟩
  exact ⟨resp, dev3, hrun,
    (handleJoin_session_key_derivation cW masksW [devW] reqW 0 ctxW devN2W rfl rfl
      resp dev3 hrun).2.1 rfl⟩

/-- C6: a `HandleJoin` request without a raw payload fails with `DataLoss` —
a sentinel distinct from `InvalidArgument` — and returns no response when the
decoded payload is absent, is not a `JoinRequestPayload` (for example a
`JoinAcceptPayload`), or carries a zero JoinEUI. -/
theorem handleJoin_dataloss_cases (c : BlockCrypto) (masks : List (Nat × Nat))
    (reg : List EndDevice) (req : JoinRequestM) (now : Nat) (addr : Nat)
    (haddr : req.devAddr = some addr) (hraw : req.rawPayload = []) :
    (req.payload = none → handleJoin c masks reg req now = .error .dataLoss) ∧
    (∀ msg, req.payload = some msg → supportedMajor msg.mhdr.major = true →
      msg.mhdr.mtype = 0 →
      (msg.payload = none → handleJoin c masks reg req now = .error .dataLoss) ∧
      (msg.payload = some .joinAcceptPayload →
        handleJoin c masks reg req now = .error .dataLoss) ∧
      (∀ jp, msg.payload = some (.joinRequestPayload jp) → jp.joinEUI = 0 →
        handleJoin c masks reg req now = .error .dataLoss)) ∧
    ErrKind.dataLoss ≠ ErrKind.invalidArgument := by
  refine ⟨?_, ?_, by decide⟩
  · intro hp
    simp [handleJoin, preNonce, haddr, parsePayload, hraw, hp]
  · intro msg hp hmaj hmt
    refine ⟨?_, ?_, ?_⟩
    · intro hmp
      simp [handleJoin, preNonce, haddr, parsePayload, hraw, hp, hmaj, hmt, hmp]
    · intro hmp
      simp [handleJoin, preNonce, haddr, parsePayload, hraw, hp, hmaj, hmt, hmp]
    · intro jp hmp hje
      simp [handleJoin, preNonce, haddr, parsePayload, hraw, hp, hmaj, hmt, hmp, hje]

/-- C6 witness: the fixture request with no payload at all fails with
`DataLoss`. -/
theorem handleJoin_dataloss_cases_witness :
    handleJoin cW masksW [] reqNoPldW 0 = .error .dataLoss :=
  (handleJoin_dataloss_cases cW masksW [] reqNoPldW 0 6 rfl rfl).1 rfl

/-- C7: a raw payload that the frame codec cannot decode as a 23-byte
join-request frame makes `HandleJoin` fail with `InvalidArgument` and no
response, as does a decoded payload carrying an unsupported Major; decoding
fails on any frame whose length is not 23, whose MType bits are not
join-request, or whose Major bits are unsupported. -/
theorem handleJoin_malformed_cases (c : BlockCrypto) (masks : List (Nat × Nat))
    (reg : List EndDevice) (req : JoinRequestM) (now : Nat) (addr : Nat)
    (haddr : req.devAddr = some addr) :
    (req.rawPayload ≠ [] → decodeJoinRequest req.rawPayload = none →
      handleJoin c masks reg req now = .error .invalidArgument) ∧
    (∀ msg, req.rawPayload = [] → req.payload = some msg →
      supportedMajor msg.mhdr.major = false →
      handleJoin c masks reg req now = .error .invalidArgument) ∧
    (∀ bs : List Nat, bs.length ≠ 23 → decodeJoinRequest bs = none) ∧
    (∀ bs : List Nat, bs.headD 0 / 32 ≠ 0 → decodeJoinRequest bs = none) ∧
    (∀ bs : List Nat, bs.headD 0 % 4 ≠ 0 → decodeJoinRequest bs = none) := by
  refine ⟨?_, ?_, ?_, ?_, ?_⟩
  · intro hne hdec
    simp [handleJoin, preNonce, haddr, parsePayload, hne, hdec]
  · intro msg hraw hp hmaj
    simp [handleJoin, preNonce, haddr, parsePayload, hraw, hp, hmaj]
  · intro bs h
    unfold decodeJoinRequest
    exact if_neg (fun hc => h hc.1)
  · intro bs h
    unfold decodeJoinRequest
    exact if_neg (fun hc => h hc.2.1)
  · intro bs h
    unfold decodeJoinRequest
    exact if_neg (fun hc => h hc.2.2)

/-- C7 witness: a 3-byte raw payload cannot be decoded and is refused with
`InvalidArgument`. -/
theorem handleJoin_malformed_cases_witness :
    handleJoin cW masksW [] reqBadRawW 0 = .error .invalidArgument :=
  (handleJoin_malformed_cases cW masksW [] reqBadRawW 0 6 rfl).1 (by decide) rfl

/-- C9: on a successful `HandleJoin` the committed device record keeps the
identifiers, root keys, LoRaWAN version, network server address and
`createdAt` of the pre-call record; its session is set to the DevAddr carried
in the request together with the session keys returned in the response and the
handling instant as `startedAt`, and `updatedAt` is set to that instant (the
remaining differences being the nonce fields governed by C1-C3). -/
theorem handleJoin_device_frame (c : BlockCrypto) (masks : List (Nat × Nat))
    (reg : List EndDevice) (req : JoinRequestM) (now : Nat) (ctx : JoinContext)
    (dev2 : EndDevice)
    (hpre : preNonce c masks reg req = .ok ctx)
    (hnc : nonceCheck ctx.parsed ctx.device = .ok dev2) :
    ∀ resp dev3, handleJoin c masks reg req now = .ok (resp, dev3) →
      dev3.joinEUI = ctx.device.joinEUI ∧
      dev3.devEUI = ctx.device.devEUI ∧
      dev3.appKey = ctx.device.appKey ∧
      dev3.nwkKey = ctx.device.nwkKey ∧
      dev3.lorawanVersion = ctx.device.lorawanVersion ∧
      dev3.networkServerAddress = ctx.device.networkServerAddress ∧
      dev3.createdAt = ctx.device.createdAt ∧
      req.devAddr = some ctx.devAddr ∧
      dev3.session = some { devAddr := ctx.devAddr, keys := resp.sessionKeys
                            startedAt := now } ∧
      dev3.updatedAt = now := by
  intro resp dev3 hsucc
  have hps := preNonce_ok_spec hpre
  have hfr := nonceCheck_frame hnc
  simp only [handleJoin, hpre, hnc, finishJoin] at hsucc
  split at hsucc
  · simp at hsucc
  · simp only [Except.ok.injEq, Prod.mk.injEq] at hsucc
    obtain ⟨hresp, hdev⟩ := hsucc
    subst hresp
    subst hdev
    exact ⟨hfr.1, hfr.2.1, hfr.2.2.1, hfr.2.2.2.1, hfr.2.2.2.2.1,
      hfr.2.2.2.2.2.1, hfr.2.2.2.2.2.2.2.1, hps.1, rfl, rfl⟩

/-- C9 witness: the 1.1 fixture commit keeps identity fields and installs the
new session at the handling instant. -/
theorem handleJoin_device_frame_witness :
    ∃ resp dev3, handleJoin cW masksW [devW] reqW 0 = .ok (resp, dev3) ∧
      dev3.joinEUI = ctxW.device.joinEUI ∧
      dev3.createdAt = ctxW.device.createdAt ∧
      reqW.devAddr = some ctxW.devAddr ∧
      dev3.session = some { devAddr := ctxW.devAddr, keys := resp.sessionKeys
                            startedAt := 0 } ∧
      dev3.updatedAt = 0 := by
  obtain ⟨resp, dev3, hrun⟩ :
      ∃ resp dev3, handleJoin cW masksW [devW] reqW 0 = .ok (resp, dev3) := ⟨_, _, rfl⟩
  have h := handleJoin_device_frame cW masksW [devW] reqW 0 ctxW devN2W rfl rfl
    resp dev3 hrun
  exact ⟨resp, dev3, hrun, h.1, h.2.2.2.2.2.2.1, h.2.2.2.2.2.2.2.1,
    h.2.2.2.2.2.2.2.2.1, h.2.2.2.2.2.2.2.2.2⟩
